import Mathlib

/-!
Verification of the MCP hub connection/registry manager and its
filtering-and-routing engine (`src/server-manager.ts`), shallowly embedded
in Lean 4.

The external MCP client/transport collaborator is modelled by data: a
`Client` carries the outcomes of its three operations (`listTools`,
`callTool`, `close`), and a server configuration carries the outcome of
session establishment (`session`).  Stateful manager methods become
functions `ManagerState → Except McpError α × ManagerState`, since in the
TypeScript source a thrown exception leaves the mutations performed so far
in place.
-/

namespace McpHub

/-! ### Pattern Matcher (`McpServerManager.matchesPattern`)

The source converts a glob pattern to a JavaScript regex in four global
string replacements, then tests the tool name against `^pattern$` with the
case-insensitive flag.  We perform the same four rewrites on the character
list and interpret the resulting regex fragment directly.  The fragment
produced by the rewrites consists only of backslash-escaped literal
characters, `.` (any character except a line terminator), and `.*`;
the lexer below also tolerates a `*` quantifier after any atom, matching
JavaScript semantics on those inputs. -/

/-- The character class of the first replacement,
`/[+?^$\x7b\x7d()|[\]\\]/g` — note it contains `?` even though the
source comment says "except * and ? and .". -/
def regexSpecials : List Char :=
  ['+', '?', '^', '$', '\x7b', '\x7d', '(', ')', '|', '[', ']', '\\']

/-- First replacement: prefix each special character with a backslash
(`.replace(/[+?^$\x7b\x7d()|[\]\\]/g, "\\$&")`). -/
def escapeSpecials (s : List Char) : List Char :=
  s.flatMap fun c => if regexSpecials.contains c then ['\\', c] else [c]

/-- Second replacement: `.replace(/\./g, "\\.")`. -/
def escapeDots (s : List Char) : List Char :=
  s.flatMap fun c => if c = '.' then ['\\', '.'] else [c]

/-- Third replacement: `.replace(/\*/g, ".*")`. -/
def starToDotStar (s : List Char) : List Char :=
  s.flatMap fun c => if c = '*' then ['.', '*'] else [c]

/-- Fourth replacement: `.replace(/\?/g, ".")`. -/
def questionToDot (s : List Char) : List Char :=
  s.map fun c => if c = '?' then '.' else c

/-- An atom of the regex fragment reachable from the glob conversion:
an (escaped or ordinary) literal character, or the `.` wildcard. -/
inductive RegexAtom
  | lit (c : Char)
  | anyChar
deriving DecidableEq

/-- Lex the produced regex source into atoms, each flagged with whether a
`*` quantifier follows it. -/
def lexRegex : List Char → List (RegexAtom × Bool)
  | [] => []
  | '\\' :: c :: '*' :: rest => (.lit c, true) :: lexRegex rest
  | '\\' :: c :: rest => (.lit c, false) :: lexRegex rest
  | '.' :: '*' :: rest => (.anyChar, true) :: lexRegex rest
  | '.' :: rest => (.anyChar, false) :: lexRegex rest
  | c :: '*' :: rest => (.lit c, true) :: lexRegex rest
  | c :: rest => (.lit c, false) :: lexRegex rest

/-- Whether an atom matches one character.  Literals compare under the
regex `i` flag (modelled as ASCII lowercasing); `.` without the `s` flag
matches anything but a line terminator. -/
def atomMatch : RegexAtom → Char → Bool
  | .lit c, x => c.toLower = x.toLower
  | .anyChar, x =>
    !(x = '\n' || x = '\r' || x.val = 0x2028 || x.val = 0x2029)

/-- The suffixes a starred atom `a*` can leave behind when matched
greedily-or-not against a prefix of `s`: drop zero or more leading
characters, each of which matches `a`. -/
def starSuffixes (a : RegexAtom) : List Char → List (List Char)
  | [] => [[]]
  | c :: rest =>
    (c :: rest) :: (if atomMatch a c then starSuffixes a rest else [])

/-- Anchored matching of the lexed regex against a character list:
`rmatch toks s` is true iff some way of expanding the starred atoms
matches the whole of `s` — the existence semantics of a backtracking
regex `test` against `^...$`. -/
def rmatch : List (RegexAtom × Bool) → List Char → Bool
  | [], s => s.isEmpty
  | (_, false) :: _, [] => false
  | (a, false) :: toks, c :: rest => atomMatch a c && rmatch toks rest
  | (a, true) :: toks, s => (starSuffixes a s).any fun t => rmatch toks t

/-- `pattern.endsWith "."` on the character list. -/
def lastIsDot (p : List Char) : Bool :=
  match p.getLast? with
  | some c => c = '.'
  | none => false

/-- `McpServerManager.matchesPattern` (lines 291–307): patterns ending in
a dot are a plain (case-sensitive) prefix test; otherwise the glob is
converted to a regex by the four replacements and tested anchored and
case-insensitively. -/
def matchesPattern (toolName pattern : String) : Bool :=
  let p := pattern.toList
  if lastIsDot p then
    List.isPrefixOf p toolName.toList
  else
    rmatch
      (lexRegex (questionToDot (starToDotStar (escapeDots (escapeSpecials p)))))
      toolName.toList

/-! ### Data model

`Tool` is a tool descriptor; the filtering layer only inspects its `name`
field.  `name = none` models a descriptor with no `name` property and
`name = some ""` an empty one — both are falsy in the source's
`!tool.name` tests. -/

structure Tool where
  name : Option String
deriving DecidableEq

/-- `ToolFilterConfig` from `src/types.ts`: optional ordered `include` and
`exclude` pattern lists. -/
structure ToolFilterConfig where
  «include» : Option (List String)
  exclude : Option (List String)
deriving DecidableEq

/-- The response of a client's `listTools()`: either an object whose
`tools` field is an array (`shaped`), or any other shape (`malformed`),
which `applyFilters` passes through unchanged. -/
inductive ToolsResponse
  | shaped (tools : List Tool)
  | malformed (tag : String)
deriving DecidableEq

/-- The external MCP client collaborator, modelled by the outcomes of its
operations: `listToolsResult` is what `client.listTools()` yields,
`callToolResult` what `client.callTool({name, arguments})` yields as a
function of the forwarded tool name and arguments, and `closeResult`
what `client.close()` yields.  `.error m` models a rejected promise with
message `m`. -/
structure Client where
  listToolsResult : Except String ToolsResponse
  callToolResult : String → List (String × String) → Except String String
  closeResult : Except String Unit

/-- The error kinds the manager can throw (§7 of the design). -/
inductive McpError
  | alreadyConnected (serverName : String)
  | notConnected (serverName : String)
  | connectFailed (serverName : String) (msg : String)
  | disconnectFailed (serverName : String) (msg : String)
  | external (msg : String)
deriving DecidableEq

/-- Launch parameters of one child server (`McpServerConfig` in
`src/types.ts`) together with the modelled outcome of establishing the
session: `session = .ok c` means spawn + handshake succeed and produce
client `c`; `session = .error m` models a spawn or handshake failure with
message `m`. -/
structure McpServerConfig where
  command : String
  args : List String
  env : List (String × String)
  filters : Option ToolFilterConfig
  session : Except String Client

/-- A parsed configuration document (`McpConfig` in `src/types.ts`):
`mcpServers = none` models an absent field. -/
structure McpConfig where
  mcpServers : Option (List (String × McpServerConfig))
  globalFilters : Option ToolFilterConfig

/-! JavaScript `Map` is an insertion-ordered association with unique keys;
we embed it as an association list with `get`/`has`/`set`/`delete` acting
on the first occurrence of a key. -/

/-- `map.get(key)`. -/
def lookupKey {α : Type} : List (String × α) → String → Option α
  | [], _ => none
  | (k, v) :: rest, key => if k = key then some v else lookupKey rest key

/-- `map.has(key)`. -/
def containsKey {α : Type} (l : List (String × α)) (key : String) : Bool :=
  (lookupKey l key).isSome

/-- `map.set(key, v)`: replace in place if present, else append. -/
def setKey {α : Type} : List (String × α) → String → α → List (String × α)
  | [], key, v => [(key, v)]
  | (k, w) :: rest, key, v =>
    if k = key then (key, v) :: rest else (k, w) :: setKey rest key v

/-- `map.delete(key)`. -/
def eraseKey {α : Type} : List (String × α) → String → List (String × α)
  | [], _ => []
  | (k, w) :: rest, key => if k = key then rest else (k, w) :: eraseKey rest key

/-- The mutable fields of `McpServerManager`: the `clients` handle map,
the per-connection `serverFilters` map and the optional `globalFilters`
rule set.  (`configPath` only feeds the external file I/O and is not
modelled.) -/
structure ManagerState where
  clients : List (String × Client)
  serverFilters : List (String × ToolFilterConfig)
  globalFilters : Option ToolFilterConfig

/-- The constructor's state initialisation (lines 81–102): empty maps and
the global filters handed in (e.g. parsed from command-line flags);
`autoLoad` then runs `loadFromConfig`, modelled separately. -/
def mkManager (globalFilters : Option ToolFilterConfig) : ManagerState :=
  { clients := [], serverFilters := [], globalFilters := globalFilters }

/-- `McpServerManager.getClient` (lines 369–377). -/
def getClient (serverName : String) (st : ManagerState) : Except McpError Client :=
  match lookupKey st.clients serverName with
  | some client => .ok client
  | none => .error (.notConnected serverName)

/-- `McpServerManager.getConnectedServers` (lines 327–329): the `clients`
keys in insertion order. -/
def getConnectedServers (st : ManagerState) : List String :=
  st.clients.map Prod.fst

/-- `McpServerManager.filterToolsByConfig` (lines 253–285): the include
reduction (a tool with a falsy name fails every include test) followed by
the exclude reduction (a tool with a falsy name survives every exclude
test), each skipped when its list is absent or empty. -/
def filterToolsByConfig (tools : List Tool) (filterConfig : ToolFilterConfig) :
    List Tool :=
  if tools.length = 0 then tools
  else
    let ft1 :=
      match filterConfig.«include» with
      | some incl =>
        if 0 < incl.length then
          tools.filter fun tool =>
            match tool.name with
            | none => false
            | some n =>
              if n = "" then false
              else incl.any fun pat => matchesPattern n pat
        else tools
      | none => tools
    match filterConfig.exclude with
    | some excl =>
      if 0 < excl.length then
        ft1.filter fun tool =>
          match tool.name with
          | none => true
          | some n =>
            if n = "" then true
            else !(excl.any fun pat => matchesPattern n pat)
      else ft1
    | none => ft1

/-- The two filtering stages of `McpServerManager.applyFilters`
(lines 230–241), factored over the tools array: the per-connection rule
set (if stored) first, then the global rule set (if any) on the output of
the first stage. -/
def applyStages (st : ManagerState) (serverName : String) (tools : List Tool) :
    List Tool :=
  let ft1 :=
    match lookupKey st.serverFilters serverName with
    | some serverFilters => filterToolsByConfig tools serverFilters
    | none => tools
  match st.globalFilters with
  | some globalFilters => filterToolsByConfig ft1 globalFilters
  | none => ft1

/-- `McpServerManager.applyFilters` (lines 224–248): a response whose
`tools` field is not an array is returned as is; otherwise the two
stages are applied to the array. -/
def applyFilters (st : ManagerState) (tools : ToolsResponse) (serverName : String) :
    ToolsResponse :=
  match tools with
  | .malformed t => .malformed t
  | .shaped ts => .shaped (applyStages st serverName ts)

/-- `McpServerManager.listTools` (lines 213–219): resolve the client,
query its live catalog, then apply the filters. -/
def listTools (serverName : String) (st : ManagerState) :
    Except McpError ToolsResponse × ManagerState :=
  match getClient serverName st with
  | .error e => (.error e, st)
  | .ok client =>
    match client.listToolsResult with
    | .error m => (.error (.external m), st)
    | .ok tools => (.ok (applyFilters st tools serverName), st)

/-- `McpServerManager.callTool` (lines 312–322): resolve the client and
forward the tool name and arguments verbatim; no filter is consulted. -/
def callTool (serverName toolName : String) (args : List (String × String))
    (st : ManagerState) : Except McpError String × ManagerState :=
  match getClient serverName st with
  | .error e => (.error e, st)
  | .ok client =>
    match client.callToolResult toolName args with
    | .ok r => (.ok r, st)
    | .error m => (.error (.external m), st)

/-- `McpServerManager.connectToServer` (lines 165–208): fail if the name
already has a handle; otherwise establish the session and store the
resulting client, or wrap and rethrow the establishment failure leaving
the registry untouched. -/
def connectToServer (serverName : String) (params : McpServerConfig)
    (st : ManagerState) : Except McpError Unit × ManagerState :=
  if containsKey st.clients serverName then
    (.error (.alreadyConnected serverName), st)
  else
    match params.session with
    | .ok client =>
      (.ok (), { st with clients := setKey st.clients serverName client })
    | .error msg => (.error (.connectFailed serverName msg), st)

/-- The connection loop of `McpServerManager.loadFromConfig`
(lines 133–159): skip names that already have a handle; otherwise store
the per-connection filters (if provided) and attempt the connection,
swallowing (logging) its failure. -/
def loadServers : List (String × McpServerConfig) → ManagerState → ManagerState
  | [], st => st
  | (serverName, serverConfig) :: rest, st =>
    if containsKey st.clients serverName then loadServers rest st
    else
      let st1 :=
        match serverConfig.filters with
        | some f =>
          { st with serverFilters := setKey st.serverFilters serverName f }
        | none => st
      loadServers rest (connectToServer serverName serverConfig st1).2

/-- `McpServerManager.loadFromConfig` (lines 107–160) on an
already-parsed document: replace the global filters if the document has a
`globalFilters` field, then connect to the configured servers (a missing
or empty `mcpServers` field only logs a warning). -/
def loadFromConfig (config : McpConfig) (st : ManagerState) : ManagerState :=
  let st1 :=
    match config.globalFilters with
    | some gf => { st with globalFilters := some gf }
    | none => st
  match config.mcpServers with
  | none => st1
  | some entries => loadServers entries st1

/-- `McpServerManager.disconnectServer` (lines 334–357): fail if the name
has no handle; otherwise close the session and, only if closing
succeeded, delete the handle — the filter map is not touched, and on a
close failure the wrapped error is rethrown with all state unchanged. -/
def disconnectServer (serverName : String) (st : ManagerState) :
    Except McpError Unit × ManagerState :=
  match lookupKey st.clients serverName with
  | none => (.error (.notConnected serverName), st)
  | some client =>
    match client.closeResult with
    | .ok _ => (.ok (), { st with clients := eraseKey st.clients serverName })
    | .error m => (.error (.disconnectFailed serverName m), st)

/-- The `for … await` loop of `disconnectAll`: disconnect each name of
the snapshot in turn; an error propagates immediately, leaving the
mutations performed so far. -/
def disconnectAllGo : List String → ManagerState →
    Except McpError Unit × ManagerState
  | [], st => (.ok (), st)
  | serverName :: rest, st =>
    match disconnectServer serverName st with
    | (.ok _, st1) => disconnectAllGo rest st1
    | (.error e, st1) => (.error e, st1)

/-- `McpServerManager.disconnectAll` (lines 362–367): snapshot the
connected names, then disconnect them sequentially. -/
def disconnectAll (st : ManagerState) : Except McpError Unit × ManagerState :=
  disconnectAllGo (getConnectedServers st) st

/-! ### Concrete fixtures used by witnesses and counterexamples -/

/-- A healthy client exposing one tool `alpha`. -/
def okClient : Client :=
  { listToolsResult := .ok (.shaped [⟨some "alpha"⟩])
  , callToolResult := fun toolName _ => .ok (String.append "called:" toolName)
  , closeResult := .ok () }

/-- A client whose `close()` rejects with message `close failed`. -/
def badCloseClient : Client :=
  { listToolsResult := .ok (.shaped [])
  , callToolResult := fun _ _ => .error "not available"
  , closeResult := .error "close failed" }

/-- A client exposing one tool `secret`; every call succeeds. -/
def secretClient : Client :=
  { listToolsResult := .ok (.shaped [⟨some "secret"⟩])
  , callToolResult := fun toolName _ => .ok (String.append "ran:" toolName)
  , closeResult := .ok () }

/-- Launch parameters whose session establishment fails. -/
def sampleParams : McpServerConfig :=
  { command := "run", args := [], env := [], filters := none
  , session := .error "spawn failed" }

/-- Two connections, the first of which fails to close. -/
def drainState : ManagerState :=
  ⟨[("a", badCloseClient), ("b", okClient)], [], none⟩

/-- A per-connection include filter stored for connection `a`. -/
def c3Filter : ToolFilterConfig := { «include» := some ["alpha"], exclude := none }

/-- One healthy connection `a` with a stored per-connection filter. -/
def c3State : ManagerState := ⟨[("a", okClient)], [("a", c3Filter)], none⟩

/-- Per-connection rule set excluding `foo`. -/
def fooConnFilter : ToolFilterConfig := { «include» := none, exclude := some ["foo"] }

/-- A state whose connection `s` excludes `foo` while the global filter
includes only `foo`. -/
def fooState : ManagerState :=
  ⟨[], [("s", fooConnFilter)], some { «include» := some ["foo"], exclude := none }⟩

/-- One healthy connection named `a`. -/
def dupState : ManagerState := ⟨[("a", okClient)], [], none⟩

/-- One connection whose close fails. -/
def badCloseState : ManagerState := ⟨[("a", badCloseClient)], [], none⟩

/-- Connection `s` with a stored exclude filter hiding its tool `secret`. -/
def secretState : ManagerState :=
  ⟨[("s", secretClient)], [("s", { «include» := none, exclude := some ["secret"] })], none⟩

/-! ### Sanity checks of the Pattern Matcher on the documented examples -/

example : matchesPattern "jira.search" "jira." = true := by decide
example : matchesPattern "search" "jira." = false := by decide
example : matchesPattern "readFile" "read*" = true := by decide
example : matchesPattern "READFILE" "read*" = true := by decide
example : matchesPattern "a.b" "a.b" = true := by decide
example : matchesPattern "axb" "a.b" = false := by decide
example : matchesPattern "" "*" = true := by decide

/-! ### Helper lemmas -/

/-- Filtering only removes tools: membership in the output implies
membership in the input. -/
theorem mem_of_mem_filterToolsByConfig (l : List Tool) (fc : ToolFilterConfig)
    (t : Tool) (h : t ∈ filterToolsByConfig l fc) : t ∈ l := by
  have sub : ∀ (xs : List Tool) (p : Tool → Bool), t ∈ xs.filter p → t ∈ xs :=
    fun xs p hx => (List.mem_filter.mp hx).1
  obtain ⟨inc, exc⟩ := fc
  unfold filterToolsByConfig at h
  split at h
  · exact h
  · rcases exc with _ | excl <;> rcases inc with _ | incl
    · exact h
    · simp only [] at h
      split at h
      · exact sub _ _ h
      · exact h
    · simp only [] at h
      split at h
      · exact sub _ _ h
      · exact h
    · simp only [] at h
      split at h
      · have h1 := sub _ _ h
        split at h1
        · exact sub _ _ h1
        · exact h1
      · split at h
        · exact sub _ _ h
        · exact h

/-- A key outside the key list is not found. -/
theorem lookupKey_eq_none {α : Type} (l : List (String × α)) (key : String)
    (h : key ∉ l.map Prod.fst) : lookupKey l key = none := by
  induction l with
  | nil => rfl
  | cons p rest ih =>
    obtain ⟨k, v⟩ := p
    simp only [List.map_cons, List.mem_cons] at h
    push_neg at h
    simp only [lookupKey]
    rw [if_neg fun hk => h.1 hk.symm]
    exact ih h.2

/-- With unique keys, deleting a key makes it unresolvable. -/
theorem lookupKey_eraseKey_self {α : Type} (l : List (String × α)) (key : String)
    (h : (l.map Prod.fst).Nodup) : lookupKey (eraseKey l key) key = none := by
  induction l with
  | nil => rfl
  | cons p rest ih =>
    obtain ⟨k, v⟩ := p
    simp only [List.map_cons, List.nodup_cons] at h
    by_cases hk : k = key
    · subst hk
      simp only [eraseKey, if_pos rfl]
      exact lookupKey_eq_none rest k h.1
    · simp only [eraseKey, if_neg hk, lookupKey]
      exact ih h.2

/-- `connectToServer` never touches the global filters. -/
theorem connectToServer_globalFilters (serverName : String)
    (params : McpServerConfig) (st : ManagerState) :
    (connectToServer serverName params st).2.globalFilters = st.globalFilters := by
  unfold connectToServer
  split
  · rfl
  · split <;> rfl

/-- The configuration connection loop never touches the global filters. -/
theorem loadServers_globalFilters (entries : List (String × McpServerConfig)) :
    ∀ st : ManagerState, (loadServers entries st).globalFilters = st.globalFilters := by
  induction entries with
  | nil => intro st; rfl
  | cons e rest ih =>
    intro st
    obtain ⟨serverName, serverConfig⟩ := e
    simp only [loadServers]
    split
    · exact ih st
    · rw [ih, connectToServer_globalFilters]
      split <;> rfl

/-! ### Claims -/

/-- Claim C1 (code bug): the spec says `?` matches exactly one arbitrary
character, so `matches("x","?")` should be true and `matches("xx","?")`
false.  In the code the first escape step escapes `?` — although its own
comment says "except * and ? and ." — so the later `?`-to-`.` rewrite
turns `\?` into the escaped literal `\.`: the pattern `?` matches only
the one-character name `.`, and `matches("x","?")` is false.  This
theorem evaluates the embedded code at the failing input. -/
theorem c1_question_mark_is_escaped :
    matchesPattern "x" "?" = false ∧ matchesPattern "xx" "?" = false ∧
      matchesPattern "." "?" = true := by decide

/-- Claim C2, counterexample: with two connections where the first fails
to close and the second would close fine, `disconnectAll` propagates the
first error and leaves `b` registered — since a successful disconnect
removes its entry and `b`'s close succeeds, no disconnect attempt was
made on `b`, falsifying "a failure while disconnecting one connection
does not prevent disconnect attempts on the remaining connections". -/
theorem c2_counterexample :
    (disconnectAll drainState).1 = .error (.disconnectFailed "a" "close failed") ∧
      lookupKey (disconnectAll drainState).2.clients "b" = some okClient ∧
      okClient.closeResult = .ok () :=
  ⟨rfl, rfl, rfl⟩

/-- Claim C2 as amended: `disconnectAll` disconnects the registered names
in registration order and stops at the first failure; that first error
propagates to the caller (it is not silently lost), and the failing
connection together with every connection after it remains registered. -/
theorem c2_disconnectAll_stops_at_first_failure
    (fs : List (String × ToolFilterConfig)) (gf : Option ToolFilterConfig)
    (pre : List (String × Client)) (serverName : String) (c : Client)
    (post : List (String × Client)) (m : String)
    (hpre : ∀ p ∈ pre, p.2.closeResult = .ok ())
    (hc : c.closeResult = .error m) :
    disconnectAll ⟨pre ++ (serverName, c) :: post, fs, gf⟩ =
      (.error (.disconnectFailed serverName m),
        ⟨(serverName, c) :: post, fs, gf⟩) := by
  induction pre with
  | nil =>
    simp only [disconnectAll, getConnectedServers, List.nil_append, List.map_cons,
      disconnectAllGo, disconnectServer, lookupKey, eq_self_iff_true, if_true, hc]
  | cons p rest ih =>
    obtain ⟨k, ck⟩ := p
    have hck : ck.closeResult = .ok () := hpre (k, ck) (by simp)
    have ih2 := ih fun q hq => hpre q (by simp [hq])
    simp only [disconnectAll, getConnectedServers, List.cons_append, List.map_cons,
      disconnectAllGo, disconnectServer, lookupKey, eq_self_iff_true, if_true, hck,
      eraseKey, List.append_eq] at ih2 ⊢
    exact ih2

/-- Claim C2 as amended, witness at a concrete input: the first of two
connections fails to close, the drain aborts with that error, and the
second connection remains registered. -/
theorem c2_amended_witness :
    disconnectAll ⟨[("a", badCloseClient), ("b", okClient)], [], none⟩ =
      (.error (.disconnectFailed "a" "close failed"),
        ⟨[("a", badCloseClient), ("b", okClient)], [], none⟩) :=
  c2_disconnectAll_stops_at_first_failure [] none [] "a" badCloseClient
    [("b", okClient)] "close failed" (by intro p hp; cases hp) rfl

/-- Claim C3, counterexample: disconnecting the healthy connection `a`
succeeds, yet the per-connection filter-rule mapping still contains the
entry for `a` afterwards — the source only deletes from `clients`, never
from `serverFilters`, falsifying "neither the handle mapping nor the
per-connection filter-rule mapping contains an entry for that name". -/
theorem c3_counterexample :
    (disconnectServer "a" c3State).1 = .ok () ∧
      lookupKey (disconnectServer "a" c3State).2.serverFilters "a" = some c3Filter :=
  ⟨rfl, rfl⟩

/-- Claim C3 as amended: a successful `disconnect(name)` removes the
handle-mapping entry (with the registry's unique keys the name no longer
resolves), but the per-connection filter-rule mapping keeps its entry for
that name unchanged — a stale entry the design elsewhere calls
harmless. -/
theorem c3_disconnect_removes_handle_keeps_filter
    (st : ManagerState) (serverName : String) (c : Client)
    (hnd : (st.clients.map Prod.fst).Nodup)
    (hc : lookupKey st.clients serverName = some c)
    (hok : c.closeResult = .ok ()) :
    disconnectServer serverName st =
        (.ok (), { st with clients := eraseKey st.clients serverName }) ∧
      lookupKey (disconnectServer serverName st).2.clients serverName = none ∧
      lookupKey (disconnectServer serverName st).2.serverFilters serverName =
        lookupKey st.serverFilters serverName := by
  have h1 : disconnectServer serverName st =
      (.ok (), { st with clients := eraseKey st.clients serverName }) := by
    simp only [disconnectServer, hc, hok]
  refine ⟨h1, ?_, ?_⟩
  · rw [h1]
    exact lookupKey_eraseKey_self _ _ hnd
  · rw [h1]

/-- Claim C3 as amended, witness at a concrete input. -/
theorem c3_amended_witness :
    disconnectServer "a" c3State =
        (.ok (), { c3State with clients := eraseKey c3State.clients "a" }) ∧
      lookupKey (disconnectServer "a" c3State).2.clients "a" = none ∧
      lookupKey (disconnectServer "a" c3State).2.serverFilters "a" =
        lookupKey c3State.serverFilters "a" :=
  c3_disconnect_removes_handle_keeps_filter c3State "a" okClient (by decide) rfl rfl

/-- Claim C4: with a stored per-connection rule set, filtering applies
the per-connection stage first and the global stage to its output, so a
tool the per-connection stage drops is absent from the final result even
when the global include list would admit it. -/
theorem c4_per_connection_exclusion_is_final
    (st : ManagerState) (ts : List Tool) (serverName : String)
    (sf : ToolFilterConfig) (t : Tool)
    (hsf : lookupKey st.serverFilters serverName = some sf)
    (ht : t ∉ filterToolsByConfig ts sf) :
    applyStages st serverName ts =
        (match st.globalFilters with
         | some gf => filterToolsByConfig (filterToolsByConfig ts sf) gf
         | none => filterToolsByConfig ts sf) ∧
      t ∉ applyStages st serverName ts := by
  have h1 : applyStages st serverName ts =
      (match st.globalFilters with
       | some gf => filterToolsByConfig (filterToolsByConfig ts sf) gf
       | none => filterToolsByConfig ts sf) := by
    simp only [applyStages, hsf]
  refine ⟨h1, ?_⟩
  rw [h1]
  cases st.globalFilters with
  | none => exact ht
  | some gf => exact fun hmem => ht (mem_of_mem_filterToolsByConfig _ _ _ hmem)

/-- Claim C4, witness: connection `s` excludes `foo` per-connection while
the global filter includes only `foo`; the tool `foo` is absent from the
final result. -/
theorem c4_witness :
    applyStages fooState "s" [⟨some "foo"⟩] =
        (match fooState.globalFilters with
         | some gf =>
           filterToolsByConfig (filterToolsByConfig [⟨some "foo"⟩] fooConnFilter) gf
         | none => filterToolsByConfig [⟨some "foo"⟩] fooConnFilter) ∧
      Tool.mk (some "foo") ∉ applyStages fooState "s" [⟨some "foo"⟩] :=
  c4_per_connection_exclusion_is_final fooState [⟨some "foo"⟩] "s" fooConnFilter
    ⟨some "foo"⟩ rfl (by decide)

/-- Claim C5: a second connect under an already-registered name fails
with the `AlreadyConnected` error, the registry is unchanged, and the
first connection's handle still resolves. -/
theorem c5_duplicate_connect_rejected
    (st : ManagerState) (serverName : String) (params : McpServerConfig) (c : Client)
    (hc : lookupKey st.clients serverName = some c) :
    connectToServer serverName params st =
        (.error (.alreadyConnected serverName), st) ∧
      getClient serverName (connectToServer serverName params st).2 = .ok c := by
  have h1 : connectToServer serverName params st =
      (.error (.alreadyConnected serverName), st) := by
    simp [connectToServer, containsKey, hc]
  exact ⟨h1, by rw [h1]; simp [getClient, hc]⟩

/-- Claim C5, witness at a concrete input. -/
theorem c5_witness :
    connectToServer "a" sampleParams dupState =
        (.error (.alreadyConnected "a"), dupState) ∧
      getClient "a" (connectToServer "a" sampleParams dupState).2 = .ok okClient :=
  c5_duplicate_connect_rejected dupState "a" sampleParams okClient rfl

/-- Claim C6: when session establishment fails, the failed connect leaves
no handle entry: it returns the wrapped error with the state unchanged,
the name does not resolve (`NotConnected`), listing its tools fails with
`NotConnected`, and the same holds for the configuration-load path. -/
theorem c6_failed_connect_leaves_no_entry
    (st : ManagerState) (serverName : String) (params : McpServerConfig) (m : String)
    (habs : lookupKey st.clients serverName = none)
    (hfail : params.session = .error m) :
    connectToServer serverName params st =
        (.error (.connectFailed serverName m), st) ∧
      getClient serverName (connectToServer serverName params st).2 =
        .error (.notConnected serverName) ∧
      (listTools serverName (connectToServer serverName params st).2).1 =
        .error (.notConnected serverName) ∧
      lookupKey (loadServers [(serverName, params)] st).clients serverName = none := by
  have hck : containsKey st.clients serverName = false := by
    simp [containsKey, habs]
  have h1 : connectToServer serverName params st =
      (.error (.connectFailed serverName m), st) := by
    simp [connectToServer, hck, hfail]
  refine ⟨h1, ?_, ?_, ?_⟩
  · rw [h1]
    simp [getClient, habs]
  · rw [h1]
    simp [listTools, getClient, habs]
  · simp only [loadServers]
    rw [if_neg (by simp [hck])]
    rcases hft : params.filters with _ | f <;>
      simp only [loadServers] <;>
      simp [connectToServer, containsKey, habs, hfail]

/-- Claim C6, witness at a concrete input. -/
theorem c6_witness :
    connectToServer "a" sampleParams (mkManager none) =
        (.error (.connectFailed "a" "spawn failed"), mkManager none) ∧
      getClient "a" (connectToServer "a" sampleParams (mkManager none)).2 =
        .error (.notConnected "a") ∧
      (listTools "a" (connectToServer "a" sampleParams (mkManager none)).2).1 =
        .error (.notConnected "a") ∧
      lookupKey (loadServers [("a", sampleParams)] (mkManager none)).clients "a" =
        none :=
  c6_failed_connect_leaves_no_entry (mkManager none) "a" sampleParams
    "spawn failed" rfl rfl

/-- Claim C7: a tool descriptor with a falsy name is dropped whenever a
non-empty include list is present, and survives the filtering whenever no
include list is active (in particular when only an exclude list is). -/
theorem c7_nameless_tool_filtering
    (t : Tool) (tools : List Tool) (fc : ToolFilterConfig)
    (hname : t.name.getD "" = "") :
    ((∃ incl, fc.«include» = some incl ∧ incl ≠ []) →
        t ∉ filterToolsByConfig tools fc) ∧
      ((fc.«include» = none ∨ fc.«include» = some []) →
        t ∈ tools → t ∈ filterToolsByConfig tools fc) := by
  constructor
  · rintro ⟨incl, hi, hne⟩ hmem
    unfold filterToolsByConfig at hmem
    split at hmem
    · rename_i hlen
      rw [List.length_eq_zero.mp hlen] at hmem
      exact List.not_mem_nil t hmem
    · rw [hi] at hmem
      simp only [] at hmem
      rw [if_pos (List.length_pos.mpr hne)] at hmem
      have hft1 : t ∈ tools.filter fun tool =>
          match tool.name with
          | none => false
          | some n =>
            if n = "" then false
            else incl.any fun pat => matchesPattern n pat := by
        rcases hx : fc.exclude with _ | excl
        · rw [hx] at hmem
          exact hmem
        · rw [hx] at hmem
          simp only [] at hmem
          split at hmem
          · exact (List.mem_filter.mp hmem).1
          · exact hmem
      have hb := (List.mem_filter.mp hft1).2
      rcases hn : t.name with _ | n
      · simp [hn] at hb
      · rw [hn] at hname
        simp only [Option.getD_some] at hname
        simp [hn, hname] at hb
  · intro hi2 hmem
    unfold filterToolsByConfig
    split
    · exact hmem
    · have hq : ∀ excl : List String, t ∈ tools.filter fun tool =>
          match tool.name with
          | none => true
          | some n =>
            if n = "" then true
            else !(excl.any fun pat => matchesPattern n pat) := by
        intro excl
        refine List.mem_filter.mpr ⟨hmem, ?_⟩
        rcases hn : t.name with _ | n
        · simp [hn]
        · rw [hn] at hname
          simp only [Option.getD_some] at hname
          simp [hn, hname]
      rcases hi2 with hi | hi <;> rw [hi] <;> simp only [] <;>
        rcases hx : fc.exclude with _ | excl <;> simp only []
      · exact hmem
      · split
        · exact hq excl
        · exact hmem
      · exact hmem
      · simp only [List.length_nil, Nat.lt_irrefl, if_false]
        split
        · exact hq excl
        · exact hmem

/-- Claim C7, witness: a nameless tool is dropped by an include filter
and survives an exclude-only filter. -/
theorem c7_witness :
    (Tool.mk none ∉
        filterToolsByConfig [⟨none⟩] { «include» := some ["*"], exclude := none }) ∧
      Tool.mk none ∈
        filterToolsByConfig [⟨none⟩] { «include» := none, exclude := some ["*"] } :=
  ⟨(c7_nameless_tool_filtering ⟨none⟩ [⟨none⟩]
      { «include» := some ["*"], exclude := none } rfl).1
        ⟨["*"], rfl, by decide⟩,
   (c7_nameless_tool_filtering ⟨none⟩ [⟨none⟩]
      { «include» := none, exclude := some ["*"] } rfl).2
        (Or.inl rfl) (by decide)⟩

/-- Claim C8: `callTool` resolves the connection and forwards the tool
name and arguments to the underlying client without consulting the
filters — even a tool name the stored filters exclude from that
connection's `listTools` output is still invoked and its result
returned. -/
theorem c8_callTool_bypasses_filters
    (st : ManagerState) (serverName toolName : String)
    (args : List (String × String)) (c : Client) (r : String) (out : List Tool)
    (hc : lookupKey st.clients serverName = some c)
    (_hlist : (listTools serverName st).1 = .ok (.shaped out))
    (_hexcl : ∀ t ∈ out, t.name.getD "" ≠ toolName)
    (hcall : c.callToolResult toolName args = .ok r) :
    callTool serverName toolName args st = (.ok r, st) := by
  simp [callTool, getClient, hc, hcall]

/-- Claim C8, witness: the tool `secret` is excluded from `listTools`
output for connection `s` by its stored filter, yet `callTool` invokes it
and returns the client's result. -/
theorem c8_witness :
    callTool "s" "secret" [] secretState = (.ok "ran:secret", secretState) :=
  c8_callTool_bypasses_filters secretState "s" "secret" [] secretClient
    "ran:secret" [] rfl rfl (by intro t ht; cases ht) rfl

/-- Claim C9: when closing the underlying client fails, `disconnect`
surfaces the wrapped error and leaves the registry unchanged — the name
still resolves to the same handle, so the disconnect can be retried. -/
theorem c9_failed_close_preserves_registration
    (st : ManagerState) (serverName : String) (c : Client) (m : String)
    (hc : lookupKey st.clients serverName = some c)
    (hf : c.closeResult = .error m) :
    disconnectServer serverName st =
        (.error (.disconnectFailed serverName m), st) ∧
      getClient serverName (disconnectServer serverName st).2 = .ok c := by
  have h1 : disconnectServer serverName st =
      (.error (.disconnectFailed serverName m), st) := by
    simp [disconnectServer, hc, hf]
  exact ⟨h1, by rw [h1]; simp [getClient, hc]⟩

/-- Claim C9, witness at a concrete input. -/
theorem c9_witness :
    disconnectServer "a" badCloseState =
        (.error (.disconnectFailed "a" "close failed"), badCloseState) ∧
      getClient "a" (disconnectServer "a" badCloseState).2 = .ok badCloseClient :=
  c9_failed_close_preserves_registration badCloseState "a" badCloseClient
    "close failed" rfl rfl

/-- Claim C10: `loadFromConfig` replaces the manager's global filters
wholesale when the document has a `globalFilters` field (whatever was
supplied before, e.g. at construction from command-line flags, is not
merged) and keeps them unchanged when the field is absent. -/
theorem c10_loadFromConfig_global_filters
    (st : ManagerState) (config : McpConfig) :
    (loadFromConfig config st).globalFilters =
      match config.globalFilters with
      | some gf => some gf
      | none => st.globalFilters := by
  unfold loadFromConfig
  rcases hg : config.globalFilters with _ | gf <;>
    rcases hs : config.mcpServers with _ | entries <;>
    simp only [hg, hs] <;>
    first
      | rfl
      | exact loadServers_globalFilters entries _

end McpHub
